import Mathlib

/-!
Verification development for the Musicconvert repository (`src/app.py`).

The file shallowly embeds the conversion pipeline of `app.py`:
`BLOCKED_HOSTS`, `_download_direct_audio`, `_save_upload`, `_convert`
and `convert_route`.  Network traffic, the ffmpeg subprocess and the
filesystem are modelled by explicit environment values (a `Server`
describing the responses of the remote host, an `EngineBehavior`
describing the transcoding engine, and flags for the temp directory),
and every function additionally returns the observable trace it
produces: the network calls issued and the files that exist on disk.
-/

/-! ## Error model

Every failure in `app.py` is raised through `abort(400, msg)`.  The
categories follow the taxonomy of the abort sites: bad input
(validation), transport failure (network), the 200 MB cap (sizeLimit)
and ffmpeg failure (conversion).  The numeric status is the literal
`400` written at each call site. -/

inductive ErrCat
  | validation
  | network
  | sizeLimit
  | conversion
deriving DecidableEq, Repr

structure AppError where
  cat : ErrCat
  status : Nat
  msg : String
deriving DecidableEq, Repr

/-- A network call issued by the pipeline (`requests.head` / `requests.get`). -/
inductive NetCall
  | headReq (url : String)
  | getReq (url : String)
deriving DecidableEq, Repr

/-! ## String helpers

Python string primitives used by `app.py`, re-implemented over the
character list of the string so that they reduce in the kernel. -/

/-- Python `str.lower()` (ASCII case folding, which is all the code needs). -/
def strLower (s : String) : String := (s.data.map Char.toLower).asString

/-- Python `str.startswith(pre)`. -/
def startsWith (pre s : String) : Bool := pre.data.isPrefixOf s.data

/-- Python whitespace characters recognised by `str.strip()`. -/
def pyIsSpace (c : Char) : Bool :=
  c = ' ' || c = '\t' || c = '\n' || c = '\x0d' || c = '\x0b' || c = '\x0c'

/-- Python `str.strip()`. -/
def strStrip (s : String) : String :=
  (((s.data.dropWhile pyIsSpace).reverse.dropWhile pyIsSpace).reverse).asString

/-! ## URL parsing (`urllib.parse.urlparse`)

Only the pieces `app.py` reads: `netloc`, `path`, and (for analysis of
the host comparison) the derived `hostname` accessor. -/

/-- Characters allowed in a URL scheme after the first one. -/
def schemeChar (c : Char) : Bool := c.isAlphanum || c = '+' || c = '-' || c = '.'

/-- Whether a character list is a syntactically valid scheme
(first character an ASCII letter, rest scheme characters). -/
def isSchemeChars : List Char → Bool
  | [] => false
  | c :: rest => c.isAlpha && rest.all schemeChar

/-- Drop the `scheme:` part of a URL, as `urlsplit` does: the text up to
the first `:` is removed when it is a valid scheme. -/
def afterScheme (cs : List Char) : List Char :=
  match cs.findIdx? (fun c => c = ':') with
  | none => cs
  | some i => if isSchemeChars (cs.take i) then cs.drop (i + 1) else cs

/-- Split `//netloc rest` into the netloc (text after `//` up to the first
`/`, `?` or `#`) and the remainder; no leading `//` means no netloc. -/
def netlocSplit : List Char → List Char × List Char
  | '/' :: '/' :: rest =>
      (rest.takeWhile (fun c => c != '/' && c != '?' && c != '#'),
       rest.dropWhile (fun c => c != '/' && c != '?' && c != '#'))
  | cs => ([], cs)

/-- `urlparse(url).netloc`. -/
def urlNetloc (url : String) : String :=
  ((netlocSplit (afterScheme url.data)).1).asString

/-- `urlparse(url).path` (the part after the netloc, before `?`/`#`). -/
def urlPath (url : String) : String :=
  (((netlocSplit (afterScheme url.data)).2).takeWhile
    (fun c => c != '?' && c != '#')).asString

/-- `urlparse(url).hostname`: the netloc with any userinfo (up to the last
`@`) and any `:port` suffix removed, lowercased. -/
def urlHostname (url : String) : String :=
  let nl := (netlocSplit (afterScheme url.data)).1
  let afterAt := (nl.reverse.takeWhile (fun c => c != '@')).reverse
  ((afterAt.takeWhile (fun c => c != ':')).map Char.toLower).asString

/-! ## Path helpers (`os.path`) -/

/-- `os.path.basename`: the text after the last `/`. -/
def basenameOf (p : String) : String :=
  ((p.data.reverse.takeWhile (fun c => c != '/')).reverse).asString

/-- `os.path.dirname`: the text before the last `/`, with trailing slashes
stripped unless the result would be empty while slashes were present. -/
def dirnameOf (p : String) : String :=
  let headChars := (p.data.reverse.dropWhile (fun c => c != '/')).reverse
  let stripped := (headChars.reverse.dropWhile (fun c => c = '/')).reverse
  (if stripped.isEmpty then headChars else stripped).asString

/-- The extension part of `os.path.splitext` applied to a basename:
the suffix from the last `.` onward, provided some earlier character of
the basename is not a `.` (leading dots never begin an extension). -/
def extOfBase (base : List Char) : List Char :=
  let rev := base.reverse
  let afterDotRev := rev.takeWhile (fun c => c != '.')
  match rev.drop afterDotRev.length with
  | [] => []
  | _ :: before => if before.any (fun c => c != '.') then '.' :: afterDotRev.reverse else []

/-- `os.path.splitext(p)[1]`. -/
def splitextSuffix (p : String) : String := (extOfBase (basenameOf p).data).asString

/-- `os.path.splitext(os.path.basename p)[0]`: the basename without its
extension. -/
def stemOf (p : String) : String :=
  let bn := (basenameOf p).data
  (bn.take (bn.length - (extOfBase bn).length)).asString

/-- `os.path.join(d, name)` for the shapes the code produces. -/
def pathJoin (d name : String) : String :=
  if d = "" then name
  else if d.data.getLast? = some '/' then d ++ name
  else d ++ "/" ++ name

/-! ## Module constants of `app.py` -/

/-- Hard block list for downloads (`BLOCKED_HOSTS` in `app.py`). -/
def BLOCKED_HOSTS : List String :=
  ["open.spotify.com", "spotify.link",
   "music.apple.com", "itunes.apple.com",
   "youtube.com", "www.youtube.com", "m.youtube.com", "youtu.be",
   "soundcloud.com", "m.soundcloud.com", "api.soundcloud.com"]

/-- `ALLOWED_OUTPUTS` in `app.py`. -/
def ALLOWED_OUTPUTS : List String := ["wav", "aiff"]

/-- `ALLOWED_CONTENT_PREFIXES` in `app.py`. -/
def ALLOWED_CONTENT_PREFIXES : List String := ["audio/"]

/-- `max_bytes = 200 * 1024 * 1024` in `_download_direct_audio`. -/
def max_bytes : Nat := 200 * 1024 * 1024

/-- `any(ctype.startswith(p) for p in ALLOWED_CONTENT_PREFIXES)`. -/
def contentAllowed (ctype : String) : Bool :=
  ALLOWED_CONTENT_PREFIXES.any (fun p => startsWith p ctype)

/-! ## Remote server model

A `Server` describes what the remote host answers: `headResult = none`
models a `requests.RequestException` during the HEAD request, and
`getResult = none` models a transport failure or non-success status of
the GET.  A successful GET delivers its body as a sequence of chunk
sizes (the sizes `iter_content` yields; only sizes are observable to the
size check) together with a declared `Content-Length` header, which the
code never reads. -/

structure HeadResponse where
  contentType : Option String
deriving DecidableEq, Repr

structure GetResponse where
  chunks : List Nat
  contentLength : Option Nat
deriving DecidableEq, Repr

structure Server where
  headResult : Option HeadResponse
  getResult : Option GetResponse
deriving DecidableEq, Repr

/-! ## The streaming write loop of `_download_direct_audio`

```
size = 0
for chunk in r.iter_content(chunk_size=1024 * 1024):
    if not chunk: continue
    size += len(chunk)
    if size > max_bytes:
        f.close(); os.remove(in_path)
        abort(400, "File is larger than the 200 MB limit.")
    f.write(chunk)
```

`chunkLoop` returns the final byte count (`none` = aborted over the
cap); `chunkTrace` records the byte count of the file on disk at every
moment of the same loop (initial state, after each iteration, and the
`0` left after `os.remove` on the abort path). -/

def chunkLoop (maxBytes : Nat) : List Nat → Nat → Option Nat
  | [], size => some size
  | c :: cs, size =>
    if c = 0 then chunkLoop maxBytes cs size
    else if size + c > maxBytes then none
    else chunkLoop maxBytes cs (size + c)

def chunkTrace (maxBytes : Nat) : List Nat → Nat → List Nat
  | [], size => [size]
  | c :: cs, size =>
    if c = 0 then size :: chunkTrace maxBytes cs size
    else if size + c > maxBytes then [size, 0]
    else size :: chunkTrace maxBytes cs (size + c)

/-! ## `_download_direct_audio`

The returned triple is (outcome, network calls issued, surviving file
on disk).  `token` stands for `uuid.uuid4().hex`. -/

def _download_direct_audio (url dest_dir token : String) (server : Server) :
    Except AppError String × List NetCall × Option String :=
  let host := strLower (urlNetloc url)
  if host ∈ BLOCKED_HOSTS then
    (Except.error ⟨ErrCat.validation, 400,
       "Downloading from that domain is not allowed. Use a direct file URL or upload the file."⟩,
     [], none)
  else
    match server.headResult with
    | none =>
        (Except.error ⟨ErrCat.network, 400, "Could not reach the URL."⟩,
         [NetCall.headReq url], none)
    | some hr =>
        let ctype := hr.contentType.getD ""
        if contentAllowed ctype = false then
          (Except.error ⟨ErrCat.validation, 400,
             "URL does not look like a direct audio file (Content-Type: "
               ++ (if ctype = "" then "unknown" else ctype) ++ ")."⟩,
           [NetCall.headReq url], none)
        else
          match server.getResult with
          | none =>
              (Except.error ⟨ErrCat.network, 400, "Failed to download the file."⟩,
               [NetCall.headReq url, NetCall.getReq url], none)
          | some g =>
              let suffix := if splitextSuffix (urlPath url) = "" then ".bin"
                            else splitextSuffix (urlPath url)
              let in_path := pathJoin dest_dir ("in_" ++ token ++ suffix)
              match chunkLoop max_bytes g.chunks 0 with
              | none =>
                  (Except.error ⟨ErrCat.sizeLimit, 400, "File is larger than the 200 MB limit."⟩,
                   [NetCall.headReq url, NetCall.getReq url], none)
              | some _ =>
                  (Except.ok in_path,
                   [NetCall.headReq url, NetCall.getReq url], some in_path)

/-! ## `_save_upload` -/

structure UploadFile where
  filename : String
  size : Nat
deriving DecidableEq, Repr

def _save_upload (fs : Option UploadFile) (dest_dir token : String) :
    Except AppError String × Option String :=
  match fs with
  | none => (Except.error ⟨ErrCat.validation, 400, "No file uploaded."⟩, none)
  | some f =>
    if f.filename = "" then
      (Except.error ⟨ErrCat.validation, 400, "No file uploaded."⟩, none)
    else
      let suffix := if splitextSuffix f.filename = "" then ".bin"
                    else splitextSuffix f.filename
      let in_path := pathJoin dest_dir ("in_" ++ token ++ suffix)
      (Except.ok in_path, some in_path)

/-! ## UTF-8 decoding with `errors="ignore"`

`bytes.decode("utf-8", errors="ignore")`: valid UTF-8 sequences decode
to their code point (overlong encodings, surrogates and values past
U+10FFFF are invalid, as in Python's strict decoder); bytes that do not
start a valid sequence are skipped.  Skipping one byte at a time yields
the same output as Python's maximal-subpart skipping, because every
byte Python drops beyond the first is a continuation byte, which is
itself skipped when reconsidered. -/

def utf8Cont (b : Nat) : Bool := 0x80 ≤ b && b ≤ 0xBF

/-- One decoding pass with a fuel counter for structural termination;
the fuel only needs to dominate the number of decoding steps, and each
step consumes at least one byte, so `length` fuel is always enough. -/
def decodeIgnoreFuel : Nat → List Nat → List Char
  | 0, _ => []
  | _, [] => []
  | fuel + 1, b :: rest =>
    if b < 0x80 then Char.ofNat b :: decodeIgnoreFuel fuel rest
    else if 0xC2 ≤ b && b ≤ 0xDF then
      match rest with
      | b2 :: rest2 =>
        if utf8Cont b2 then
          Char.ofNat ((b - 0xC0) * 64 + (b2 - 0x80)) :: decodeIgnoreFuel fuel rest2
        else decodeIgnoreFuel fuel rest
      | [] => []
    else if 0xE0 ≤ b && b ≤ 0xEF then
      match rest with
      | b2 :: b3 :: rest3 =>
        if (if b = 0xE0 then 0xA0 ≤ b2 && b2 ≤ 0xBF
            else if b = 0xED then 0x80 ≤ b2 && b2 ≤ 0x9F
            else utf8Cont b2) && utf8Cont b3 then
          Char.ofNat (((b - 0xE0) * 64 + (b2 - 0x80)) * 64 + (b3 - 0x80))
            :: decodeIgnoreFuel fuel rest3
        else decodeIgnoreFuel fuel rest
      | _ => decodeIgnoreFuel fuel rest
    else if 0xF0 ≤ b && b ≤ 0xF4 then
      match rest with
      | b2 :: b3 :: b4 :: rest4 =>
        if (if b = 0xF0 then 0x90 ≤ b2 && b2 ≤ 0xBF
            else if b = 0xF4 then 0x80 ≤ b2 && b2 ≤ 0x8F
            else utf8Cont b2) && utf8Cont b3 && utf8Cont b4 then
          Char.ofNat ((((b - 0xF0) * 64 + (b2 - 0x80)) * 64 + (b3 - 0x80)) * 64 + (b4 - 0x80))
            :: decodeIgnoreFuel fuel rest4
        else decodeIgnoreFuel fuel rest
      | _ => decodeIgnoreFuel fuel rest
    else decodeIgnoreFuel fuel rest

def decodeIgnore (bs : List Nat) : List Char := decodeIgnoreFuel bs.length bs

/-! ## `_convert`

The ffmpeg invocation is recorded as an `FfmpegCall` (argument for
argument the keyword arguments of `.output(...)` plus
`.overwrite_output()`).  The engine's behaviour is an environment
value: success, or failure carrying the raw `e.stderr` bytes (`none`
models `e.stderr is None`). -/

structure FfmpegCall where
  input : String
  output : String
  acodec : String
  ar : Nat
  ac : Nat
  loglevel : String
  overwrite : Bool
deriving DecidableEq, Repr

inductive EngineBehavior
  | ok
  | fail (stderrBytes : Option (List Nat))
deriving DecidableEq, Repr

def _convert (in_path out_format : String) (engine : EngineBehavior) :
    Except AppError String × FfmpegCall × Option String :=
  let base := stemOf in_path
  let out_path := pathJoin (dirnameOf in_path) (base ++ "." ++ out_format)
  let acodec := if out_format = "wav" then "pcm_s16le" else "pcm_s16be"
  let call : FfmpegCall := ⟨in_path, out_path, acodec, 44100, 2, "error", true⟩
  match engine with
  | EngineBehavior.ok => (Except.ok out_path, call, some out_path)
  | EngineBehavior.fail stderrBytes =>
      (Except.error ⟨ErrCat.conversion, 400,
         "Conversion failed: "
           ++ (match stderrBytes with
               | none => "unknown error"
               | some bs => if bs = [] then "unknown error" else (decodeIgnore bs).asString)⟩,
       call, none)

/-! ## `convert_route`

The request carries the form fields read by the route
(`request.form.get("format", "wav")`, `request.form.get("rights")`,
`request.files["file"]` when present, and
`request.form.get("file_url", "")`).  The environment supplies the
`mkdtemp` directory name, the uuid token, the remote server, the engine
and whether `shutil.rmtree` succeeds.  The outcome records the
response, the network calls, whether the workspace directory was
created/removed, the files produced by the handler body, and the files
still on disk after the `after_this_request` cleanup ran. -/

structure ConvRequest where
  format : Option String
  rights : Option String
  upload : Option UploadFile
  file_url : String
deriving DecidableEq, Repr

structure Env where
  tmpdir : String
  token : String
  server : Server
  engine : EngineBehavior
  rmtreeOk : Bool
deriving DecidableEq, Repr

structure SendFileCall where
  path : String
  download_name : String
  mimetype : String
deriving DecidableEq, Repr

structure BodyOut where
  result : Except AppError SendFileCall
  calls : List NetCall
  files : List String
deriving Repr

structure ReqOutcome where
  result : Except AppError SendFileCall
  calls : List NetCall
  tmpdirCreated : Bool
  tmpdirRemoved : Bool
  filesCreated : List String
  filesRemaining : List String
deriving Repr

/-- The cleanup registered via `@after_this_request` right after
`_safe_tempdir()`: it runs on every response produced after that point
(Flask turns each `abort(400, ...)` into a response and then runs the
callback), removes the directory tree when the filesystem cooperates,
and is wrapped in `try/except` + `ignore_errors=True`, so it never
changes the response. -/
def applyCleanup (b : BodyOut) (rmtreeOk : Bool) : ReqOutcome :=
  { result := b.result
    calls := b.calls
    tmpdirCreated := true
    tmpdirRemoved := rmtreeOk
    filesCreated := b.files
    filesRemaining := if rmtreeOk then [] else b.files }

/-- Outcome of the two aborts raised before `_safe_tempdir()` runs: no
directory, no files, no network traffic. -/
def earlyOutcome (e : AppError) : ReqOutcome :=
  { result := Except.error e
    calls := []
    tmpdirCreated := false
    tmpdirRemoved := false
    filesCreated := []
    filesRemaining := [] }

/-- The Python truth test `"file" in request.files and
request.files["file"].filename`. -/
def usableUpload : Option UploadFile → Bool
  | some f => f.filename != ""
  | none => false

/-- The files-on-disk list contributed by an optional surviving file. -/
def optFiles : Option String → List String
  | some p => [p]
  | none => []

/-- The tail of the handler: `_convert` then `send_file` with the
derived download name and mimetype. -/
def convert_finish (in_path target_fmt : String) (files : List String)
    (calls : List NetCall) (engine : EngineBehavior) : BodyOut :=
  match _convert in_path target_fmt engine with
  | (Except.error e, _, outFile) => ⟨Except.error e, calls, files ++ optFiles outFile⟩
  | (Except.ok out_path, _, outFile) =>
      ⟨Except.ok ⟨out_path, basenameOf out_path,
         if target_fmt = "wav" then "audio/x-wav" else "audio/aiff"⟩,
       calls, files ++ optFiles outFile⟩

/-- The `elif file_url: ... else: abort(...)` part of the route body. -/
def acquire_from_url (file_url tmpdir token : String) (server : Server)
    (engine : EngineBehavior) (target_fmt : String) : BodyOut :=
  if file_url = "" then
    ⟨Except.error ⟨ErrCat.validation, 400,
       "Provide a file upload or a direct audio file URL."⟩, [], []⟩
  else
    match _download_direct_audio file_url tmpdir token server with
    | (Except.error e, calls, fileOpt) => ⟨Except.error e, calls, optFiles fileOpt⟩
    | (Except.ok in_path, calls, fileOpt) =>
        convert_finish in_path target_fmt (optFiles fileOpt) calls engine

/-- The handler body after `_safe_tempdir()`: choose the input source
(upload preferred when present with a filename), then convert. -/
def convert_body (upload : Option UploadFile) (file_url_raw tmpdir token : String)
    (server : Server) (engine : EngineBehavior) (target_fmt : String) : BodyOut :=
  let file_url := strStrip file_url_raw
  match upload with
  | some f =>
      if f.filename = "" then
        acquire_from_url file_url tmpdir token server engine target_fmt
      else
        match _save_upload (some f) tmpdir token with
        | (Except.error e, fileOpt) => ⟨Except.error e, [], optFiles fileOpt⟩
        | (Except.ok in_path, fileOpt) =>
            convert_finish in_path target_fmt (optFiles fileOpt) [] engine
  | none => acquire_from_url file_url tmpdir token server engine target_fmt

/-- `convert_route` in `app.py`. -/
def convert_route (req : ConvRequest) (env : Env) : ReqOutcome :=
  let target_fmt := strLower (req.format.getD "wav")
  if target_fmt ∉ ALLOWED_OUTPUTS then
    earlyOutcome ⟨ErrCat.validation, 400, "Unsupported output format."⟩
  else if req.rights = none then
    earlyOutcome ⟨ErrCat.validation, 400, "You must confirm you have rights to this content."⟩
  else
    applyCleanup
      (convert_body req.upload req.file_url env.tmpdir env.token env.server env.engine target_fmt)
      env.rmtreeOk

/-! ## Helper lemmas -/

/-- If the chunks received sum to more than the cap, the write loop
aborts (the check is on accumulated received bytes, so the server
cannot smuggle the total past the cap in any chunking). -/
theorem chunkLoop_overflow (m : Nat) (cs : List Nat) (s : Nat)
    (hs : s ≤ m) (h : m < s + cs.sum) : chunkLoop m cs s = none := by
  induction cs generalizing s with
  | nil => simp only [List.sum_nil, Nat.add_zero] at h; omega
  | cons c cs ih =>
    simp only [List.sum_cons] at h
    simp only [chunkLoop]
    by_cases hc : c = 0
    · subst hc
      rw [if_pos rfl]
      exact ih s hs (by omega)
    · rw [if_neg hc]
      by_cases hov : s + c > m
      · rw [if_pos hov]
      · rw [if_neg hov]
        exact ih (s + c) (by omega) (by omega)

/-- Every on-disk byte count recorded while the write loop runs stays
within the cap, provided it starts within the cap. -/
theorem chunkTrace_bound (m : Nat) (cs : List Nat) (s : Nat)
    (hs : s ≤ m) : ∀ x ∈ chunkTrace m cs s, x ≤ m := by
  induction cs generalizing s with
  | nil =>
    intro x hx
    simp only [chunkTrace, List.mem_singleton] at hx
    omega
  | cons c cs ih =>
    intro x hx
    simp only [chunkTrace] at hx
    by_cases hc : c = 0
    · rw [if_pos hc] at hx
      rcases List.mem_cons.mp hx with h1 | h2
      · omega
      · exact ih s hs x h2
    · rw [if_neg hc] at hx
      by_cases hov : s + c > m
      · rw [if_pos hov] at hx
        rcases List.mem_cons.mp hx with h1 | h2
        · omega
        · simp only [List.mem_singleton] at h2
          omega
      · rw [if_neg hov] at hx
        rcases List.mem_cons.mp hx with h1 | h2
        · omega
        · exact ih (s + c) (by omega) x h2

/-- A blocked netloc short-circuits `_download_direct_audio` before any
network call. -/
theorem download_blocked (url dest token : String) (server : Server)
    (h : strLower (urlNetloc url) ∈ BLOCKED_HOSTS) :
    _download_direct_audio url dest token server =
      (Except.error ⟨ErrCat.validation, 400,
        "Downloading from that domain is not allowed. Use a direct file URL or upload the file."⟩,
       [], none) := by
  simp only [_download_direct_audio]
  rw [if_pos h]

/-- Once the format and rights gates pass, `convert_route` is the
handler body wrapped in the scheduled cleanup. -/
theorem convert_route_unfold (req : ConvRequest) (env : Env)
    (h1 : strLower (req.format.getD "wav") ∈ ALLOWED_OUTPUTS)
    (h2 : req.rights ≠ none) :
    convert_route req env =
      applyCleanup
        (convert_body req.upload req.file_url env.tmpdir env.token env.server env.engine
          (strLower (req.format.getD "wav")))
        env.rmtreeOk := by
  simp only [convert_route]
  rw [if_neg (not_not_intro h1), if_neg h2]

/-- Without a usable upload the body takes the URL branch. -/
theorem convert_body_no_upload (u : Option UploadFile) (hu : usableUpload u = false)
    (file_url tmpdir token : String) (server : Server) (engine : EngineBehavior)
    (tf : String) :
    convert_body u file_url tmpdir token server engine tf =
      acquire_from_url (strStrip file_url) tmpdir token server engine tf := by
  cases u with
  | none => rfl
  | some f =>
    simp only [usableUpload, bne_eq_false_iff_eq] at hu
    simp only [convert_body]
    rw [if_pos hu]

/-! ## Claims -/

/-- Claim C1: for every request that reaches the URL branch with a URL
whose lowercase host (the lowercased network-location string, exactly as
`_download_direct_audio` computes it) is in `BLOCKED_HOSTS`, the request
fails with a ValidationError — an HTTP 400 whose message states the
domain is not allowed — and no network call (neither HEAD nor GET) is
issued. -/
theorem blocked_host_rejected_without_network (req : ConvRequest) (env : Env)
    (h1 : strLower (req.format.getD "wav") ∈ ALLOWED_OUTPUTS)
    (h2 : req.rights ≠ none)
    (h3 : usableUpload req.upload = false)
    (h4 : strStrip req.file_url ≠ "")
    (h5 : strLower (urlNetloc (strStrip req.file_url)) ∈ BLOCKED_HOSTS) :
    (convert_route req env).result =
      Except.error ⟨ErrCat.validation, 400,
        "Downloading from that domain is not allowed. Use a direct file URL or upload the file."⟩
    ∧ (convert_route req env).calls = [] := by
  rw [convert_route_unfold req env h1 h2, convert_body_no_upload req.upload h3]
  simp only [acquire_from_url]
  rw [if_neg h4, download_blocked _ _ _ _ h5]
  exact ⟨rfl, rfl⟩

/-- Witness for C1: a youtube.com watch URL is rejected with the
blocked-domain message and an empty network trace. -/
theorem blocked_host_rejected_without_network_witness :
    (convert_route ⟨some "wav", some "on", none, "https://youtube.com/watch?v=x"⟩
        ⟨"/tmp/musicconv_c1", "c1token", ⟨none, none⟩, EngineBehavior.ok, true⟩).result =
      Except.error ⟨ErrCat.validation, 400,
        "Downloading from that domain is not allowed. Use a direct file URL or upload the file."⟩
    ∧ (convert_route ⟨some "wav", some "on", none, "https://youtube.com/watch?v=x"⟩
        ⟨"/tmp/musicconv_c1", "c1token", ⟨none, none⟩, EngineBehavior.ok, true⟩).calls = [] :=
  blocked_host_rejected_without_network _ _ (by decide) (by decide) (by decide) (by decide)
    (by decide)

/-- Claim C4: for every input path and engine behaviour, the ffmpeg
invocation built by `_convert` requests the fixed profile 44100 Hz,
2 channels, and signed 16-bit PCM whose endianness is determined by the
target format alone: little-endian (`pcm_s16le`) for `wav`,
big-endian (`pcm_s16be`) for `aiff`.  No request field reaches the codec
choice, so the byte order is not user-selectable. -/
theorem transcoder_fixed_profile (in_path fmt : String) (engine : EngineBehavior) :
    ((_convert in_path fmt engine).2.1.ar = 44100)
    ∧ ((_convert in_path fmt engine).2.1.ac = 2)
    ∧ (fmt = "wav" → (_convert in_path fmt engine).2.1.acodec = "pcm_s16le")
    ∧ (fmt = "aiff" → (_convert in_path fmt engine).2.1.acodec = "pcm_s16be")
    ∧ (∀ e₂ : EngineBehavior, (_convert in_path fmt e₂).2.1 = (_convert in_path fmt engine).2.1) := by
  have hprofile : ∀ e : EngineBehavior,
      (_convert in_path fmt e).2.1 =
        ⟨in_path, pathJoin (dirnameOf in_path) (stemOf in_path ++ "." ++ fmt),
         if fmt = "wav" then "pcm_s16le" else "pcm_s16be", 44100, 2, "error", true⟩ := by
    intro e
    cases e <;> rfl
  refine ⟨?_, ?_, ?_, ?_, ?_⟩
  · rw [hprofile]
  · rw [hprofile]
  · intro h
    rw [hprofile, h]
    simp
  · intro h
    subst h
    rw [hprofile]
    simp
  · intro e₂
    rw [hprofile, hprofile]

/-- Witness for C4: concrete invocations for both targets carry the
profile, with the endianness dictated by the container. -/
theorem transcoder_fixed_profile_witness :
    ((_convert "/tmp/musicconv_c4/in_t.flac" "wav" EngineBehavior.ok).2.1.acodec = "pcm_s16le")
    ∧ ((_convert "/tmp/musicconv_c4/in_t.flac" "aiff" EngineBehavior.ok).2.1.acodec = "pcm_s16be")
    ∧ ((_convert "/tmp/musicconv_c4/in_t.flac" "wav" EngineBehavior.ok).2.1.ar = 44100)
    ∧ ((_convert "/tmp/musicconv_c4/in_t.flac" "wav" EngineBehavior.ok).2.1.ac = 2) :=
  ⟨(transcoder_fixed_profile "/tmp/musicconv_c4/in_t.flac" "wav" EngineBehavior.ok).2.2.1 rfl,
   (transcoder_fixed_profile "/tmp/musicconv_c4/in_t.flac" "aiff" EngineBehavior.ok).2.2.2.1 rfl,
   (transcoder_fixed_profile "/tmp/musicconv_c4/in_t.flac" "wav" EngineBehavior.ok).1,
   (transcoder_fixed_profile "/tmp/musicconv_c4/in_t.flac" "wav" EngineBehavior.ok).2.1⟩

/-- Claim C8: the blocked-host check compares the full lowercased
network-location string, so the URL `https://youtube.com:443/x` — whose
hostname is the blocked `youtube.com` but whose netloc carries an
explicit port — is not caught by the block, and `_download_direct_audio`
issues a HEAD request for it (shown here against a server model for
which even an unreachable HEAD leaves the attempted call in the
trace). -/
theorem netloc_block_bypassed_by_port :
    urlHostname "https://youtube.com:443/x" ∈ BLOCKED_HOSTS
    ∧ strLower (urlNetloc "https://youtube.com:443/x") ∉ BLOCKED_HOSTS
    ∧ (_download_direct_audio "https://youtube.com:443/x" "/tmp/musicconv_c8" "c8token"
        ⟨none, none⟩).2.1 = [NetCall.headReq "https://youtube.com:443/x"] :=
  ⟨by decide, by decide, rfl⟩

/-- Claim C9: the byte counter is incremented and checked against the
cap before each chunk is written, so every on-disk byte count observable
during the download loop (`chunkTrace` records them all, including the
state after the abort-path delete) stays within `max_bytes`. -/
theorem disk_bytes_never_exceed_cap (chunks : List Nat) (x : Nat)
    (hx : x ∈ chunkTrace max_bytes chunks 0) : x ≤ max_bytes :=
  chunkTrace_bound max_bytes chunks 0 (Nat.zero_le _) x hx

/-- Witness for C9: a 1 MiB chunk followed by an over-cap chunk; the
intermediate on-disk size of 1 MiB is within the cap. -/
theorem disk_bytes_never_exceed_cap_witness :
    1048576 ∈ chunkTrace max_bytes [1048576, 209715200] 0 ∧ 1048576 ≤ max_bytes :=
  ⟨by decide, disk_bytes_never_exceed_cap [1048576, 209715200] 1048576 (by decide)⟩

/-- Claim C2: whenever the bytes actually received in a GET body sum to
more than the 200 MB cap, the download aborts with SizeLimitExceeded
and no input file survives on disk (the partially written file is
deleted); and the outcome is independent of the server-declared
`Content-Length` header, which the loop never consults. -/
theorem size_cap_abort_deletes_partial_file (url dest token : String) (server : Server)
    (hr : HeadResponse) (g : GetResponse)
    (hblock : strLower (urlNetloc url) ∉ BLOCKED_HOSTS)
    (hhead : server.headResult = some hr)
    (hct : contentAllowed (hr.contentType.getD "") = true)
    (hget : server.getResult = some g)
    (hsize : max_bytes < g.chunks.sum) :
    (_download_direct_audio url dest token server =
      (Except.error ⟨ErrCat.sizeLimit, 400, "File is larger than the 200 MB limit."⟩,
       [NetCall.headReq url, NetCall.getReq url], none))
    ∧ (∀ cl : Option Nat,
        _download_direct_audio url dest token
          { server with getResult := some { g with contentLength := cl } } =
        _download_direct_audio url dest token server) := by
  obtain ⟨sh, sg⟩ := server
  obtain ⟨chunks, clen⟩ := g
  have hhead' : sh = some hr := hhead
  have hget' : sg = some ⟨chunks, clen⟩ := hget
  subst hhead'
  subst hget'
  have hloop : chunkLoop max_bytes chunks 0 = none :=
    chunkLoop_overflow _ _ 0 (Nat.zero_le _) (by simpa using hsize)
  have hct2 : ¬ contentAllowed (hr.contentType.getD "") = false := by simp [hct]
  constructor
  · simp only [_download_direct_audio]
    rw [if_neg hblock, if_neg hct2, hloop]
  · intro cl
    rfl

/-- Witness for C2: a single chunk one byte over the cap triggers the
size-limit abort with both network calls issued and no surviving
file. -/
theorem size_cap_abort_deletes_partial_file_witness :
    _download_direct_audio "https://example.com/big.flac" "/tmp/musicconv_c2" "c2token"
        ⟨some ⟨some "audio/flac"⟩, some ⟨[209715201], some 5⟩⟩ =
      (Except.error ⟨ErrCat.sizeLimit, 400, "File is larger than the 200 MB limit."⟩,
       [NetCall.headReq "https://example.com/big.flac",
        NetCall.getReq "https://example.com/big.flac"], none) :=
  (size_cap_abort_deletes_partial_file "https://example.com/big.flac" "/tmp/musicconv_c2"
    "c2token" ⟨some ⟨some "audio/flac"⟩, some ⟨[209715201], some 5⟩⟩ ⟨some "audio/flac"⟩
    ⟨[209715201], some 5⟩ (by decide) rfl (by decide) rfl (by decide)).1

/-- Claim C3: every request that passes the format and rights gates
creates the workspace, the scheduled cleanup removes it and everything
inside it at request end whenever the filesystem cooperates — on every
outcome, since the environment (server, engine) is universally
quantified — and a failing removal never changes the response. -/
theorem workspace_released_on_every_outcome (req : ConvRequest) (env : Env)
    (h1 : strLower (req.format.getD "wav") ∈ ALLOWED_OUTPUTS)
    (h2 : req.rights ≠ none) :
    ((convert_route req env).tmpdirCreated = true)
    ∧ (env.rmtreeOk = true →
        (convert_route req env).tmpdirRemoved = true
        ∧ (convert_route req env).filesRemaining = [])
    ∧ (∀ b₁ b₂ : Bool,
        (convert_route req { env with rmtreeOk := b₁ }).result =
        (convert_route req { env with rmtreeOk := b₂ }).result) := by
  refine ⟨?_, ?_, ?_⟩
  · rw [convert_route_unfold req env h1 h2]
    rfl
  · intro hrm
    rw [convert_route_unfold req env h1 h2]
    exact ⟨hrm, by simp [applyCleanup, hrm]⟩
  · intro b₁ b₂
    rw [convert_route_unfold req _ h1 h2, convert_route_unfold req _ h1 h2]
    rfl

/-- Witness for C3: a request whose conversion fails still has its
workspace created and removed, and flipping the rmtree result leaves
the response unchanged. -/
theorem workspace_released_on_every_outcome_witness :
    ((convert_route ⟨some "wav", some "on", some ⟨"a.flac", 9⟩, ""⟩
        ⟨"/tmp/musicconv_c3", "c3token", ⟨none, none⟩,
         EngineBehavior.fail none, true⟩).tmpdirCreated = true)
    ∧ ((convert_route ⟨some "wav", some "on", some ⟨"a.flac", 9⟩, ""⟩
        ⟨"/tmp/musicconv_c3", "c3token", ⟨none, none⟩,
         EngineBehavior.fail none, true⟩).tmpdirRemoved = true) := by
  have h := workspace_released_on_every_outcome
    ⟨some "wav", some "on", some ⟨"a.flac", 9⟩, ""⟩
    ⟨"/tmp/musicconv_c3", "c3token", ⟨none, none⟩, EngineBehavior.fail none, true⟩
    (by decide) (by decide)
  exact ⟨h.1, (h.2.1 rfl).1⟩

/-- Claim C5: for every non-blocked URL the HEAD request comes first in
the network trace; an unreachable HEAD yields a NetworkError with no
GET issued; and a disallowed content type yields a ValidationError
whose message carries the observed content type (or "unknown" when none
was observed), again with no GET and no download. -/
theorem head_precheck_gates_download (url dest token : String) (server : Server)
    (hblock : strLower (urlNetloc url) ∉ BLOCKED_HOSTS) :
    ((_download_direct_audio url dest token server).2.1.head? = some (NetCall.headReq url))
    ∧ (server.headResult = none →
        _download_direct_audio url dest token server =
          (Except.error ⟨ErrCat.network, 400, "Could not reach the URL."⟩,
           [NetCall.headReq url], none))
    ∧ (∀ hr : HeadResponse, server.headResult = some hr →
        contentAllowed (hr.contentType.getD "") = false →
        _download_direct_audio url dest token server =
          (Except.error ⟨ErrCat.validation, 400,
            "URL does not look like a direct audio file (Content-Type: "
              ++ (if hr.contentType.getD "" = "" then "unknown" else hr.contentType.getD "")
              ++ ")."⟩,
           [NetCall.headReq url], none)) := by
  obtain ⟨sh, sg⟩ := server
  refine ⟨?_, ?_, ?_⟩
  · cases sh with
    | none =>
      simp only [_download_direct_audio]
      rw [if_neg hblock]
      rfl
    | some hr =>
      simp only [_download_direct_audio]
      rw [if_neg hblock]
      by_cases hc : contentAllowed (hr.contentType.getD "") = false
      · rw [if_pos hc]
        rfl
      · rw [if_neg hc]
        cases sg with
        | none => rfl
        | some g => split <;> first | rfl | (split <;> rfl)
  · intro hh
    have hh' : sh = none := hh
    subst hh'
    simp only [_download_direct_audio]
    rw [if_neg hblock]
  · intro hr hh hc
    have hh' : sh = some hr := hh
    subst hh'
    simp only [_download_direct_audio]
    rw [if_neg hblock, if_pos hc]

/-- Witness for C5: a HEAD that reports `text/html` is rejected with the
observed content type in the message and only the HEAD in the trace. -/
theorem head_precheck_gates_download_witness :
    _download_direct_audio "https://example.com/page" "/tmp/musicconv_c5" "c5token"
        ⟨some ⟨some "text/html"⟩, none⟩ =
      (Except.error ⟨ErrCat.validation, 400,
        "URL does not look like a direct audio file (Content-Type: "
          ++ (if ("text/html" : String) = "" then "unknown" else "text/html") ++ ")."⟩,
       [NetCall.headReq "https://example.com/page"], none) :=
  (head_precheck_gates_download "https://example.com/page" "/tmp/musicconv_c5" "c5token"
    ⟨some ⟨some "text/html"⟩, none⟩ (by decide)).2.2 ⟨some "text/html"⟩ rfl (by decide)

/-- Claim C10: the target-format field is lowercased before the allowed
check, so any two format strings with the same lowercase form — e.g.
"WAV" and "wav", or "Aiff" and "aiff" — produce identical request
outcomes in every environment. -/
theorem format_case_insensitive (s t : String) (h : strLower s = strLower t)
    (rights : Option String) (upload : Option UploadFile) (file_url : String) (env : Env) :
    convert_route ⟨some s, rights, upload, file_url⟩ env =
    convert_route ⟨some t, rights, upload, file_url⟩ env := by
  simp only [convert_route, Option.getD_some]
  rw [h]

/-- Witness for C10: "WAV" and "Aiff" behave exactly like their
lowercase forms on a concrete request. -/
theorem format_case_insensitive_witness :
    (convert_route ⟨some "WAV", some "on", none, ""⟩
       ⟨"/tmp/musicconv_c10", "c10token", ⟨none, none⟩, EngineBehavior.ok, true⟩ =
     convert_route ⟨some "wav", some "on", none, ""⟩
       ⟨"/tmp/musicconv_c10", "c10token", ⟨none, none⟩, EngineBehavior.ok, true⟩)
    ∧ (convert_route ⟨some "Aiff", some "on", none, ""⟩
       ⟨"/tmp/musicconv_c10", "c10token", ⟨none, none⟩, EngineBehavior.ok, true⟩ =
     convert_route ⟨some "aiff", some "on", none, ""⟩
       ⟨"/tmp/musicconv_c10", "c10token", ⟨none, none⟩, EngineBehavior.ok, true⟩) :=
  ⟨format_case_insensitive "WAV" "wav" (by decide) (some "on") none "" _,
   format_case_insensitive "Aiff" "aiff" (by decide) (some "on") none "" _⟩

/-- The concrete request used to examine claim C6: valid format, rights
confirmed, but neither an upload nor a URL source. -/
def reqNoSource : ConvRequest := ⟨some "wav", some "on", none, ""⟩

/-- The concrete environment used to examine claim C6. -/
def envNoSource : Env :=
  ⟨"/tmp/musicconv_c6", "c6token", ⟨none, none⟩, EngineBehavior.ok, true⟩

/-- Counterexample to claim C6 as stated: a request with neither source
(and valid format and rights) is indeed rejected with a ValidationError
and performs no network call, but the rejection happens only after
`_safe_tempdir()` has already created the workspace directory — i.e.
after filesystem I/O — so the claim that such a request "is rejected
... before any I/O is performed" is false on this input. -/
theorem missing_source_rejected_after_workspace_io :
    (convert_route reqNoSource envNoSource).result =
      Except.error ⟨ErrCat.validation, 400, "Provide a file upload or a direct audio file URL."⟩
    ∧ (convert_route reqNoSource envNoSource).tmpdirCreated = true :=
  ⟨rfl, rfl⟩

/-- Claim C6 (amended): a request whose target format is outside the
enum is rejected with a ValidationError before any I/O (no workspace
directory, no file, no network call); a request with neither source is
rejected with a ValidationError with no network call and no file
created, but only after the workspace directory has been created (it is
removed again at request end). -/
theorem early_rejection_before_acquisition (req : ConvRequest) (env : Env) :
    (strLower (req.format.getD "wav") ∉ ALLOWED_OUTPUTS →
      convert_route req env =
        earlyOutcome ⟨ErrCat.validation, 400, "Unsupported output format."⟩)
    ∧ (strLower (req.format.getD "wav") ∈ ALLOWED_OUTPUTS → req.rights ≠ none →
       usableUpload req.upload = false → strStrip req.file_url = "" →
        (convert_route req env).result =
          Except.error ⟨ErrCat.validation, 400, "Provide a file upload or a direct audio file URL."⟩
        ∧ (convert_route req env).calls = []
        ∧ (convert_route req env).filesCreated = []
        ∧ (convert_route req env).tmpdirCreated = true) := by
  constructor
  · intro h
    simp only [convert_route]
    rw [if_pos h]
  · intro h1 h2 h3 h4
    rw [convert_route_unfold req env h1 h2, convert_body_no_upload req.upload h3]
    simp only [acquire_from_url]
    rw [if_pos h4]
    exact ⟨rfl, rfl, rfl, rfl⟩

/-- Witness for the amended C6: an `mp3` request is rejected with no
workspace at all, and the no-source request is rejected with no network
call and no file. -/
theorem early_rejection_before_acquisition_witness :
    (convert_route ⟨some "mp3", some "on", none, ""⟩ envNoSource =
       earlyOutcome ⟨ErrCat.validation, 400, "Unsupported output format."⟩)
    ∧ ((convert_route reqNoSource envNoSource).calls = []
       ∧ (convert_route reqNoSource envNoSource).filesCreated = []) := by
  have hbad := (early_rejection_before_acquisition ⟨some "mp3", some "on", none, ""⟩
    envNoSource).1 (by decide)
  have hnos := (early_rejection_before_acquisition reqNoSource envNoSource).2
    (by decide) (by decide) (by decide) (by decide)
  exact ⟨hbad, hnos.2.1, hnos.2.2.1⟩

/-- Claim C7: when the transcoding engine fails, the request fails with
a ConversionError whose message carries the engine's stderr decoded as
UTF-8 with undecodable bytes dropped, verbatim after the fixed prefix;
when the engine produced no diagnostic output (stderr absent or empty),
the message carries "unknown error" instead. -/
theorem conversion_error_preserves_diagnostics (in_path fmt : String)
    (stderrBytes : Option (List Nat)) :
    ((stderrBytes = none ∨ stderrBytes = some []) →
      (_convert in_path fmt (EngineBehavior.fail stderrBytes)).1 =
        Except.error ⟨ErrCat.conversion, 400, "Conversion failed: unknown error"⟩)
    ∧ (∀ bs : List Nat, stderrBytes = some bs → bs ≠ [] →
      (_convert in_path fmt (EngineBehavior.fail stderrBytes)).1 =
        Except.error ⟨ErrCat.conversion, 400,
          "Conversion failed: " ++ (decodeIgnore bs).asString⟩) := by
  constructor
  · rintro (rfl | rfl) <;> rfl
  · rintro bs rfl hbs
    simp only [_convert]
    rw [if_neg hbs]

/-- Witness for C7: stderr bytes `62 FF 61` decode to "ba" (the invalid
byte `FF` is tolerated and dropped) and appear verbatim in the message;
the check also evaluates the decoded text on this input. -/
theorem conversion_error_preserves_diagnostics_witness :
    ((_convert "/tmp/musicconv_c7/in_c.flac" "wav"
        (EngineBehavior.fail (some [98, 255, 97]))).1 =
      Except.error ⟨ErrCat.conversion, 400,
        "Conversion failed: " ++ (decodeIgnore [98, 255, 97]).asString⟩)
    ∧ (decodeIgnore [98, 255, 97]).asString = "ba" :=
  ⟨(conversion_error_preserves_diagnostics "/tmp/musicconv_c7/in_c.flac" "wav"
      (some [98, 255, 97])).2 [98, 255, 97] rfl (by decide),
   by decide⟩
